import Mathlib

set_option maxRecDepth 100000

/-!
Verification development for the request-processing core of a GraphQL
federation gateway: the Automatic Persisted Query (APQ) cache stage
(src/apollo-router-core/src/layers/apq.rs) and the canonical response
data model (src/apollo-router-core/src/response.rs).

The Rust sources are embedded shallowly: pure functions become Lean
functions, the stateful cache becomes explicit state passing, machine
integers become Nat with explicit reduction modulo 2^32, and fallible
code returns Option or Except.
-/

/-! ## Bit-level helpers for SHA-256

The sha2 crate computes SHA-256 over the UTF-8 bytes of the query.
We embed FIPS 180-4 SHA-256 directly.  32-bit words are Nat values kept
below 2^32 by explicit `% 2^32`.  Bitwise operations are computed by a
fuel-indexed structural recursion over the bits so that every definition
reduces in the kernel. -/

/-- Combine up to three words bit by bit with the boolean function `f`,
processing `fuel` low bits. -/
def bits3 (f : Bool → Bool → Bool → Bool) : Nat → Nat → Nat → Nat → Nat
  | 0, _, _, _ => 0
  | fuel + 1, a, b, c =>
      (cond (f (a % 2 == 1) (b % 2 == 1) (c % 2 == 1)) 1 0) +
        2 * bits3 f fuel (a / 2) (b / 2) (c / 2)

/-- Bitwise exclusive or of three 32-bit words. -/
def xor3 (a b c : Nat) : Nat :=
  bits3 (fun x y z => Bool.xor (Bool.xor x y) z) 32 a b c

/-- The SHA-256 choice function: for each bit, if `e` then `f` else `g`. -/
def shaCh (e f g : Nat) : Nat :=
  bits3 (fun x y z => cond x y z) 32 e f g

/-- The SHA-256 majority function. -/
def shaMaj (a b c : Nat) : Nat :=
  bits3 (fun x y z => (x && y) || (x && z) || (y && z)) 32 a b c

/-- Rotate a 32-bit word right by `n` bits. -/
def rotr32 (n w : Nat) : Nat :=
  (w / 2 ^ n + (w % 2 ^ n) * 2 ^ (32 - n)) % 2 ^ 32

/-- Logical right shift of a 32-bit word. -/
def shr32 (n w : Nat) : Nat := w / 2 ^ n

/-- The big sigma-0 function of SHA-256. -/
def bigSigma0 (x : Nat) : Nat := xor3 (rotr32 2 x) (rotr32 13 x) (rotr32 22 x)

/-- The big sigma-1 function of SHA-256. -/
def bigSigma1 (x : Nat) : Nat := xor3 (rotr32 6 x) (rotr32 11 x) (rotr32 25 x)

/-- The small sigma-0 function of SHA-256 (message schedule). -/
def smallSigma0 (x : Nat) : Nat := xor3 (rotr32 7 x) (rotr32 18 x) (shr32 3 x)

/-- The small sigma-1 function of SHA-256 (message schedule). -/
def smallSigma1 (x : Nat) : Nat := xor3 (rotr32 17 x) (rotr32 19 x) (shr32 10 x)

/-- The 64 SHA-256 round constants. -/
def shaK : List Nat :=
  [1116352408, 1899447441, 3049323471, 3921009573,
   961987163, 1508970993, 2453635748, 2870763221,
   3624381080, 310598401, 607225278, 1426881987,
   1925078388, 2162078206, 2614888103, 3248222580,
   3835390401, 4022224774, 264347078, 604807628,
   770255983, 1249150122, 1555081692, 1996064986,
   2554220882, 2821834349, 2952996808, 3210313671,
   3336571891, 3584528711, 113926993, 338241895,
   666307205, 773529912, 1294757372, 1396182291,
   1695183700, 1986661051, 2177026350, 2456956037,
   2730485921, 2820302411, 3259730800, 3345764771,
   3516065817, 3600352804, 4094571909, 275423344,
   430227734, 506948616, 659060556, 883997877,
   958139571, 1322822218, 1537002063, 1747873779,
   1955562222, 2024104815, 2227730452, 2361852424,
   2428436474, 2756734187, 3204031479, 3329325298]

/-- The SHA-256 initial hash value. -/
def shaH0 : List Nat :=
  [1779033703, 3144134277, 1013904242, 2773480762,
   1359893119, 2600822924, 528734635, 1541459225]

/-- Working state of the SHA-256 compression function. -/
structure ShaState where
  a : Nat
  b : Nat
  c : Nat
  d : Nat
  e : Nat
  f : Nat
  g : Nat
  h : Nat
deriving Repr, DecidableEq

/-- One round of the SHA-256 compression function; `wk` is the pair of
the scheduled message word and the round constant. -/
def shaRound (st : ShaState) (wk : Nat × Nat) : ShaState :=
  let t1 := (st.h + bigSigma1 st.e + shaCh st.e st.f st.g + wk.2 + wk.1) % 2 ^ 32
  let t2 := (bigSigma0 st.a + shaMaj st.a st.b st.c) % 2 ^ 32
  { a := (t1 + t2) % 2 ^ 32
    b := st.a
    c := st.b
    d := st.c
    e := (st.d + t1) % 2 ^ 32
    f := st.e
    g := st.f
    h := st.g }

/-- Extend the first 16 message-schedule words by `fuel` further words.
The accumulator holds the words produced so far, most recent first. -/
def extendW : Nat → List Nat → List Nat
  | 0, acc => acc
  | fuel + 1, acc =>
      let w2 := acc.getD 1 0
      let w7 := acc.getD 6 0
      let w15 := acc.getD 14 0
      let w16 := acc.getD 15 0
      extendW fuel (((smallSigma1 w2 + w7 + smallSigma0 w15 + w16) % 2 ^ 32) :: acc)

/-- Split a byte list into 32-bit big-endian words (4 bytes per word).
Structural recursion on the list. -/
def wordsOfBytes : List Nat → List Nat
  | b0 :: b1 :: b2 :: b3 :: rest =>
      (b0 * 2 ^ 24 + b1 * 2 ^ 16 + b2 * 2 ^ 8 + b3) :: wordsOfBytes rest
  | _ => []

/-- Process one 64-byte chunk: build the 64-word schedule, run 64
compression rounds and add the result to the intermediate hash
(a list of eight words). -/
def shaChunk (hs : List Nat) (chunk : List Nat) : List Nat :=
  let w := (extendW 48 (wordsOfBytes chunk).reverse).reverse
  let st0 : ShaState :=
    { a := hs.getD 0 0, b := hs.getD 1 0, c := hs.getD 2 0, d := hs.getD 3 0
      e := hs.getD 4 0, f := hs.getD 5 0, g := hs.getD 6 0, h := hs.getD 7 0 }
  let st := (w.zip shaK).foldl shaRound st0
  [(hs.getD 0 0 + st.a) % 2 ^ 32, (hs.getD 1 0 + st.b) % 2 ^ 32,
   (hs.getD 2 0 + st.c) % 2 ^ 32, (hs.getD 3 0 + st.d) % 2 ^ 32,
   (hs.getD 4 0 + st.e) % 2 ^ 32, (hs.getD 5 0 + st.f) % 2 ^ 32,
   (hs.getD 6 0 + st.g) % 2 ^ 32, (hs.getD 7 0 + st.h) % 2 ^ 32]

/-- Split a list into chunks of 64 bytes; `fuel` bounds the recursion
so that the definition is structural and reduces in the kernel. -/
def chunks64 : Nat → List Nat → List (List Nat)
  | 0, _ => []
  | _, [] => []
  | fuel + 1, bs => bs.take 64 :: chunks64 fuel (bs.drop 64)

/-- Encode a number as `n` big-endian bytes. -/
def beBytes : Nat → Nat → List Nat
  | 0, _ => []
  | k + 1, v => v / 2 ^ (8 * k) % 256 :: beBytes k v

/-- SHA-256 padding: append 0x80, zero bytes and the 8-byte big-endian
bit length, reaching a multiple of 64 bytes. -/
def shaPad (msg : List Nat) : List Nat :=
  let l := msg.length
  let z := (64 - (l + 9) % 64) % 64
  msg ++ 0x80 :: List.replicate z 0 ++ beBytes 8 (8 * l)

/-- SHA-256 of a byte list, producing the 32 digest bytes.  Embeds the
sha2 crate computation used by `query_matches_hash`. -/
def sha256 (msg : List Nat) : List Nat :=
  let padded := shaPad msg
  let hs := (chunks64 padded.length padded).foldl shaChunk shaH0
  hs.foldr (fun w acc => beBytes 4 w ++ acc) []

/-- UTF-8 encoding of one character (the byte sequence Rust
`str::as_bytes` exposes for it). -/
def utf8Char (c : Char) : List Nat :=
  let n := c.toNat
  if n < 0x80 then [n]
  else if n < 0x800 then [0xC0 + n / 64, 0x80 + n % 64]
  else if n < 0x10000 then [0xE0 + n / 4096, 0x80 + n / 64 % 64, 0x80 + n % 64]
  else [0xF0 + n / 262144, 0x80 + n / 4096 % 64, 0x80 + n / 64 % 64, 0x80 + n % 64]

/-- UTF-8 bytes of a string, as Rust `str::as_bytes`. -/
def utf8Bytes (s : String) : List Nat :=
  (s.data.map utf8Char).flatten

/-- SHA-256 digest bytes of the UTF-8 encoding of a string. -/
def sha256Utf8 (s : String) : List Nat := sha256 (utf8Bytes s)

/-! ## Hex encoding and decoding

The function hex::decode is applied to the `sha256Hash` string of the persisted
query descriptor; `hex::encode` is the lowercase hex encoding used to
state digests as strings. -/

/-- The lowercase hex digit for a value below 16. -/
def hexDigit (n : Nat) : Char :=
  if n < 10 then Char.ofNat (48 + n) else Char.ofNat (87 + n)

/-- Lowercase hex encoding of a byte list (hex::encode). -/
def hexEncode (bs : List Nat) : String :=
  String.mk ((bs.map (fun b => [hexDigit (b / 16), hexDigit (b % 16)])).flatten)

/-- The value of one hex digit character, accepting both cases
(hex::decode accepts mixed case). -/
def hexVal (c : Char) : Option Nat :=
  if '0' ≤ c ∧ c ≤ '9' then some (c.toNat - 48)
  else if 'a' ≤ c ∧ c ≤ 'f' then some (c.toNat - 87)
  else if 'A' ≤ c ∧ c ≤ 'F' then some (c.toNat - 55)
  else none

/-- Decode a list of hex characters two at a time; an odd length or a
non-hex character fails (hex::decode). -/
def hexDecodeChars : List Char → Option (List Nat)
  | [] => some []
  | [_] => none
  | c1 :: c2 :: rest => do
      let hi ← hexVal c1
      let lo ← hexVal c2
      let tl ← hexDecodeChars rest
      pure ((16 * hi + lo) :: tl)

/-- hex::decode on a string: the raw bytes, or failure. -/
def hexDecode (s : String) : Option (List Nat) := hexDecodeChars s.data

/-! ## The JSON value model

serde_json_bytes `Value` is external to the files under verification;
we model it as a plain JSON tree.  Numbers are modelled as integers
(every number appearing in this core — versions, line and column
numbers, path indices — is integral).  Objects are association lists;
objects produced by the JSON parser have distinct keys, and lookups
return the first match. -/

inductive Json where
  | null : Json
  | bool : Bool → Json
  | num : Int → Json
  | str : String → Json
  | arr : List Json → Json
  | obj : List (String × Json) → Json

/-- Association-list lookup on a JSON object (Map::get). -/
def lookupObj (fields : List (String × Json)) (key : String) : Option Json :=
  (fields.find? (fun f => f.1 == key)).map (fun f => f.2)

/-! ## Paths and errors

The `Path` and `Error` types live in files of this repository that are
not under src/ (only src/apollo-router-core/src/response.rs uses them),
so they are modelled from the spec. -/

/-- Modelled from the spec: one segment of a response path (the spec
describes `path` as an optional sequence of path segments, shown on the
wire as strings and integer indices, e.g. ["hero", "heroFriends", 1,
"name"]). -/
inductive PathSeg where
  | key : String → PathSeg
  | index : Nat → PathSeg

/-- Modelled from the spec: a response path is a sequence of segments. -/
abbrev RPath := List PathSeg

/-- Modelled from the spec: decoding a JSON value through the path
schema — an array whose elements are strings or non-negative integers;
any other shape is malformed. -/
def decodePathSeg (v : Json) : Option PathSeg :=
  match v with
  | .str s => some (.key s)
  | .num n => if 0 ≤ n then some (.index n.toNat) else none
  | _ => none

/-- Modelled from the spec: decode a JSON value as an `RPath`. -/
def decodePath (v : Json) : Option RPath :=
  match v with
  | .arr elems => elems.mapM decodePathSeg
  | _ => none

/-- Modelled from the spec: a source location `{line, column}` inside an
error. -/
structure Location where
  line : Nat
  column : Nat

/-- Modelled from the spec: the GraphQL error record
`{ message: string, locations: sequence of {line, column},
path: optional path, extensions: mapping }`.  The type itself lives in
a file of the repository not under src/. -/
structure Error where
  message : String
  locations : List Location
  path : Option RPath
  extensions : List (String × Json)

/-- Modelled from the spec: the typed parse failure of the response
assembler, carrying the originating service name and a human-readable
reason.  The full error enum lives outside src/; only this variant is
relevant here. -/
inductive FetchError where
  | SubrequestMalformedResponse : (service : String) → (reason : String) → FetchError

/-- The canonical response structure of
src/apollo-router-core/src/response.rs (fields in declaration order,
serialized with the camelCase rename rule of the serde derive). -/
structure Response where
  label : Option String
  data : Json
  path : Option RPath
  has_next : Option Bool
  errors : List Error
  extensions : List (String × Json)

/-- skip_data_if from response.rs: data is omitted from the wire when
it is an empty object or null. -/
def skip_data_if (value : Json) : Bool :=
  match value with
  | .obj o => o.isEmpty
  | .null => true
  | _ => false

/-- Response::is_primary from response.rs: a response is primary iff it
carries no path. -/
def Response.is_primary (r : Response) : Bool := r.path.isNone

/-- Response::append_errors from response.rs: `self.errors.append(errors)`
moves the given errors to the end of the response errors.  The Rust
method drains its argument; in the pure embedding the effect on the
response is returned. -/
def Response.append_errors (r : Response) (errors : List Error) : Response :=
  { r with errors := r.errors ++ errors }

/-! ## Serialization

The serde derive on Response (src/apollo-router-core/src/response.rs,
attributes `rename_all = "camelCase"` and the per-field
`skip_serializing_if`) emits the fields in declaration order under
camel-case wire names, omitting absent optionals, empty/null data,
empty errors and empty extensions. -/

/-- Modelled from the spec: wire form of a path segment. -/
def PathSeg.toJson : PathSeg → Json
  | .key s => .str s
  | .index n => .num n

/-- Modelled from the spec: wire form of a path. -/
def pathToJson (p : RPath) : Json := .arr (p.map PathSeg.toJson)

/-- Modelled from the spec: wire form of an error record. -/
def Error.toJson (e : Error) : Json :=
  .obj ([("message", .str e.message),
         ("locations",
          .arr (e.locations.map (fun l => .obj [("line", .num l.line), ("column", .num l.column)])))]
    ++ (match e.path with | none => [] | some p => [("path", pathToJson p)])
    ++ [("extensions", .obj e.extensions)])

/-- Serialization of a Response per the serde attributes in response.rs:
declaration order, camelCase names, and the four omission rules. -/
def Response.toJson (r : Response) : Json :=
  .obj ((match r.label with | none => [] | some l => [("label", Json.str l)])
    ++ (if skip_data_if r.data then [] else [("data", r.data)])
    ++ (match r.path with | none => [] | some p => [("path", pathToJson p)])
    ++ (match r.has_next with | none => [] | some b => [("hasNext", Json.bool b)])
    ++ (if r.errors.isEmpty then [] else [("errors", Json.arr (r.errors.map Error.toJson))])
    ++ (if r.extensions.isEmpty then [] else [("extensions", Json.obj r.extensions)]))

/-! ## Response::from_bytes

Response::from_bytes (response.rs lines 61-117) parses downstream bytes
into a Response.  The byte-to-JSON step (Value::from_bytes) and the
extraction helpers (ensure_object!, extract_key_value_from_object!) are
external to src/, so the function is embedded over an already parsed
JSON value, with the extraction semantics modelled from the spec:
each field must have the stated shape if present (a JSON null counts
as absent), every extraction failure aborts the whole parse with a
SubrequestMalformedResponse naming the service. -/

/-- Modelled from the spec: the extraction of a key from the parsed
object — absent and null both mean "not present". -/
def extractAny (fields : List (String × Json)) (key : String) : Option Json :=
  match lookupObj fields key with
  | none => none
  | some .null => none
  | some v => some v

/-- Modelled from the spec: conversion of one element of the `errors`
array into an Error record (Error::from_value lives outside src/):
an object with a string `message`, optional `locations` array of
`{line, column}` objects, optional `path`, optional object
`extensions`; any other shape is a field-level failure carrying the
same service name. -/
def Error.from_value (service : String) (v : Json) : Except FetchError Error :=
  match v with
  | .obj fields => do
      let message ←
        match extractAny fields "message" with
        | some (.str s) => .ok s
        | _ => .error (.SubrequestMalformedResponse service "invalid error message")
      let locations ←
        match extractAny fields "locations" with
        | none => .ok []
        | some (.arr ls) =>
            ls.mapM (fun l =>
              match l with
              | .obj lf =>
                  match extractAny lf "line", extractAny lf "column" with
                  | some (.num a), some (.num b) =>
                      if 0 ≤ a ∧ 0 ≤ b then .ok ⟨a.toNat, b.toNat⟩
                      else .error (.SubrequestMalformedResponse service "invalid error location")
                  | _, _ => .error (.SubrequestMalformedResponse service "invalid error location")
              | _ => .error (.SubrequestMalformedResponse service "invalid error location"))
        | some _ => .error (.SubrequestMalformedResponse service "invalid error locations")
      let path ←
        match extractAny fields "path" with
        | none => .ok none
        | some pv =>
            match decodePath pv with
            | some p => .ok (some p)
            | none => .error (.SubrequestMalformedResponse service "invalid error path")
      let extensions ←
        match extractAny fields "extensions" with
        | none => .ok []
        | some (.obj o) => .ok o
        | some _ => .error (.SubrequestMalformedResponse service "invalid error extensions")
      .ok { message := message, locations := locations, path := path, extensions := extensions }
  | _ => .error (.SubrequestMalformedResponse service "invalid error entry")

/-- Response::from_bytes over the parsed JSON value: field-by-field
extraction in source order (data, errors, extensions, label, path,
has_next — note the snake_case key "has_next" taken verbatim from
response.rs line 103), each failure mapped to
SubrequestMalformedResponse with the service name. -/
def Response.from_bytes (service : String) (v : Json) : Except FetchError Response := do
  let fields ←
    match v with
    | .obj fields => .ok fields
    | _ => .error (.SubrequestMalformedResponse service "invalid type, expected an object")
  let data := (extractAny fields "data").getD (.obj [])
  let errors ←
    match extractAny fields "errors" with
    | none => .ok []
    | some (.arr es) => es.mapM (Error.from_value service)
    | some _ => .error (.SubrequestMalformedResponse service "invalid type for key: errors")
  let extensions ←
    match extractAny fields "extensions" with
    | none => .ok []
    | some (.obj o) => .ok o
    | some _ => .error (.SubrequestMalformedResponse service "invalid type for key: extensions")
  let label ←
    match extractAny fields "label" with
    | none => .ok none
    | some (.str s) => .ok (some s)
    | some _ => .error (.SubrequestMalformedResponse service "invalid type for key: label")
  let path ←
    match extractAny fields "path" with
    | none => .ok none
    | some pv =>
        match decodePath pv with
        | some p => .ok (some p)
        | none => .error (.SubrequestMalformedResponse service "invalid path for key: path")
  let has_next ←
    match extractAny fields "has_next" with
    | none => .ok none
    | some (.bool b) => .ok (some b)
    | some _ => .error (.SubrequestMalformedResponse service "invalid type for key: has_next")
  .ok { label := label, data := data, path := path, has_next := has_next,
        errors := errors, extensions := extensions }

/-! ## The APQ cache stage

Embedding of src/apollo-router-core/src/layers/apq.rs.  The moka cache
and the router request and context types are external to src/ and are
modelled from the spec; the branch logic of APQService::call is taken
from the source. -/

/-- The PersistedQuery descriptor of apq.rs lines 10-15:
`{ version: u8, sha256Hash: string }`, deserialized from the
"persistedQuery" extension value. -/
structure PersistedQuery where
  version : Nat
  sha256hash : String

/-- serde deserialization of a PersistedQuery from a JSON value
(the serde derive on the struct): the value must be an object, the
"version" field an integer fitting in u8, the "sha256Hash" field a
string; unknown fields are ignored; any other shape fails. -/
def parsePersistedQuery (v : Json) : Option PersistedQuery :=
  match v with
  | .obj fields => do
      let version ←
        match lookupObj fields "version" with
        | some (.num n) => if 0 ≤ n ∧ n < 256 then some n.toNat else none
        | _ => none
      let hash ←
        match lookupObj fields "sha256Hash" with
        | some (.str s) => some s
        | _ => none
      pure { version := version, sha256hash := hash }
  | _ => none

/-- Modelled from the spec: the APQ cache, a mapping from raw decoded
hash bytes to the cached query text.  The moka cache used by the source
is external to src/; the spec describes it as a key/value store with
get and insert and leaves the bounded-eviction policy open, so it is
modelled as an association list where insert shadows older entries. -/
abbrev Cache := List (List Nat × String)

/-- Cache lookup: the most recently inserted entry for the key. -/
def Cache.get (c : Cache) (k : List Nat) : Option String :=
  (List.find? (fun e => e.1 == k) c).map (fun e => e.2)

/-- Cache insert with overwrite semantics (the new entry shadows any
older entry for the same key). -/
def Cache.insert (c : Cache) (k : List Nat) (v : String) : Cache :=
  (k, v) :: c

/-- Modelled from the spec: the request-scoped context object that must
be carried through short-circuit responses unchanged.  Its payload is
not inspected by this core; `with_request` attaches the request to it. -/
structure Context where
  payload : Nat
  attachedQuery : Option String

/-- The GraphQL request body: the literal query string and the
extension side-channel object. -/
structure GraphqlRequest where
  query : String
  extensions : List (String × Json)

/-- Context::with_request (external to src/), modelled from the spec:
the context object itself is preserved; the request is attached for
downstream consumers. -/
def Context.with_request (c : Context) (r : GraphqlRequest) : Context :=
  { c with attachedQuery := some r.query }

/-- The router request: the HTTP request body (the GraphQL request)
plus the request-scoped context.  The HTTP envelope carries nothing
this core inspects, so `http_request` holds the body directly. -/
structure RouterRequest where
  http_request : GraphqlRequest
  context : Context

/-- The router response as the APQ stage produces it: the GraphQL
response plus the context it carries. -/
structure RouterResponse where
  response : Response
  context : Context

/-- The pre-built APQ miss error of APQ::with_capacity
(apq.rs lines 27-40): message "PersistedQueryNotFound", default (empty)
locations and path, and the structured extensions object. -/
def apqMissError : Error :=
  { message := "PersistedQueryNotFound"
    locations := []
    path := none
    extensions :=
      [("code", .str "PERSISTED_QUERY_NOT_FOUND"),
       ("exception",
        .obj [("stacktrace",
               .arr [.str "PersistedQueryNotFoundError: PersistedQueryNotFound"])])] }

/-- The synthesized cache-miss response: the response builder holding
the single APQ miss error, completed with the given context
(apq.rs lines 125-128; the builder defaults, external to src/, are the
empty response of the spec). -/
def missResponse (ctx : Context) : RouterResponse :=
  { response :=
      { label := none, data := .obj [], path := none, has_next := none,
        errors := [apqMissError], extensions := [] }
    context := ctx }

/-- query_matches_hash from apq.rs lines 141-145: recompute the SHA-256
digest of the UTF-8 bytes of the query and compare it to the claimed
hash bytes. -/
def query_matches_hash (query : String) (hash : List Nat) : Bool :=
  hash == sha256 (utf8Bytes query)

/-- The hash extraction of APQService::call (apq.rs lines 97-107):
read the "persistedQuery" extension value, deserialize it as a
PersistedQuery, and hex-decode its sha256Hash; any failure yields
none. -/
def maybeQueryHash (req : RouterRequest) : Option (List Nat) :=
  ((lookupObj req.http_request.extensions "persistedQuery").bind
      parsePersistedQuery).bind
    (fun pq => hexDecode pq.sha256hash)

/-- The outcome of one APQService::call: either the request is
forwarded to the inner service (possibly with a rewritten query), or a
locally synthesized response is returned and the inner service is not
invoked at all. -/
inductive Outcome where
  | forward : RouterRequest → Outcome
  | shortCircuit : RouterResponse → Outcome

/-- APQService::call (apq.rs lines 93-138) as a state transformer over
the cache: the three-way match on (maybe_query_hash, request).
With a decoded hash and a non-empty literal query, insert into the
cache only when the hash verifies, and forward unchanged either way.
With a decoded hash and an empty query, rewrite the query on a cache
hit and forward; on a miss, short-circuit with the pre-built response
carrying the request context. Without a decodable hash, forward
unchanged. -/
def apqCall (cache : Cache) (req : RouterRequest) : Outcome × Cache :=
  match maybeQueryHash req with
  | some query_hash =>
      if req.http_request.query ≠ "" then
        if query_matches_hash req.http_request.query query_hash then
          (.forward req, cache.insert query_hash req.http_request.query)
        else
          (.forward req, cache)
      else
        match cache.get query_hash with
        | some query =>
            (.forward { req with http_request := { req.http_request with query := query } },
             cache)
        | none =>
            (.shortCircuit (missResponse (req.context.with_request req.http_request)),
             cache)
  | none => (.forward req, cache)

/-- APQService::poll_ready (apq.rs lines 89-91): the admission check of
the stage delegates to the inner service. -/
def apqPollReady (innerReady : Bool) : Bool := innerReady

/-- Modelled from the spec: the pipeline-stage contract of §4.1 — the
admission check is queried before submitting a unit of work, and the
request is handled only once admission succeeds.  `none` means the
request is blocked at admission. -/
def processWithAdmission (innerReady : Bool) (cache : Cache) (req : RouterRequest) :
    Option (Outcome × Cache) :=
  if apqPollReady innerReady then some (apqCall cache req) else none

/-! Helper lemmas: digest bytes are bytes, hex decoding inverts hex
encoding, and cache lookup after insert. -/

theorem beBytes_lt (k : Nat) : ∀ (v : Nat), ∀ b ∈ beBytes k v, b < 256 := by
  induction k with
  | zero => intro v b hb; simp [beBytes] at hb
  | succ n ih =>
      intro v b hb
      simp only [beBytes, List.mem_cons] at hb
      rcases hb with h | h
      · subst h; exact Nat.mod_lt _ (by norm_num)
      · exact ih v b h

theorem foldr_beBytes_lt (ws : List Nat) :
    ∀ b ∈ ws.foldr (fun w acc => beBytes 4 w ++ acc) [], b < 256 := by
  induction ws with
  | nil => intro b hb; simp at hb
  | cons w rest ih =>
      intro b hb
      simp only [List.foldr_cons, List.mem_append] at hb
      rcases hb with h | h
      · exact beBytes_lt 4 w b h
      · exact ih b h

theorem sha256_bytes_lt (msg : List Nat) : ∀ b ∈ sha256 msg, b < 256 := by
  intro b hb
  exact foldr_beBytes_lt _ b hb

theorem hexVal_hexDigit : ∀ n < 16, hexVal (hexDigit n) = some n := by decide

theorem hexDecodeChars_encode (bs : List Nat) (hbs : ∀ b ∈ bs, b < 256) :
    hexDecodeChars
      ((bs.map (fun b => [hexDigit (b / 16), hexDigit (b % 16)])).flatten) = some bs := by
  induction bs with
  | nil => rfl
  | cons b rest ih =>
      have hb : b < 256 := hbs b (List.mem_cons_self b rest)
      have hhi : b / 16 < 16 := by omega
      have hlo : b % 16 < 16 := Nat.mod_lt _ (by norm_num)
      have hrest := ih (fun x hx => hbs x (List.mem_cons_of_mem b hx))
      simp only [List.map_cons, List.flatten_cons, List.cons_append, List.append_eq,
        List.nil_append, hexDecodeChars]
      rw [hexVal_hexDigit _ hhi, hexVal_hexDigit _ hlo]
      simp [hrest, Nat.div_add_mod b 16]

theorem hexDecode_hexEncode (bs : List Nat) (hbs : ∀ b ∈ bs, b < 256) :
    hexDecode (hexEncode bs) = some bs := by
  simpa [hexDecode, hexEncode] using hexDecodeChars_encode bs hbs

theorem Cache.get_insert_self (c : Cache) (k : List Nat) (v : String) :
    (c.insert k v).get k = some v := by
  simp [Cache.get, Cache.insert, List.find?]

/-- The hash string of the persisted query descriptor, before hex
decoding (apq.rs lines 97-105 stop short of hex::decode here). -/
def requestHashHex (req : RouterRequest) : Option String :=
  ((lookupObj req.http_request.extensions "persistedQuery").bind
      parsePersistedQuery).map (fun pq => pq.sha256hash)

theorem maybeQueryHash_eq (req : RouterRequest) :
    maybeQueryHash req = (requestHashHex req).bind hexDecode := by
  cases h : (lookupObj req.http_request.extensions "persistedQuery").bind parsePersistedQuery with
  | none => simp [maybeQueryHash, requestHashHex, h]
  | some pq => simp [maybeQueryHash, requestHashHex, h]

theorem query_matches_hash_self (q : String) :
    query_matches_hash q (sha256Utf8 q) = true := by
  simp [query_matches_hash, sha256Utf8]

theorem query_matches_hash_ne (q : String) (hb : List Nat)
    (h : hb ≠ sha256 (utf8Bytes q)) : query_matches_hash q hb = false := by
  simp [query_matches_hash, h]

/-! Branch lemmas for APQService::call, shared by the claim theorems. -/

theorem apqCall_insert (c : Cache) (req : RouterRequest) (hb : List Nat)
    (hh : maybeQueryHash req = some hb)
    (hq : req.http_request.query ≠ "")
    (hm : query_matches_hash req.http_request.query hb = true) :
    apqCall c req = (.forward req, c.insert hb req.http_request.query) := by
  unfold apqCall
  rw [hh]
  simp [hq, hm]

theorem apqCall_mismatch (c : Cache) (req : RouterRequest) (hb : List Nat)
    (hh : maybeQueryHash req = some hb)
    (hq : req.http_request.query ≠ "")
    (hm : query_matches_hash req.http_request.query hb = false) :
    apqCall c req = (.forward req, c) := by
  unfold apqCall
  rw [hh]
  simp [hq, hm]

theorem apqCall_hit (c : Cache) (req : RouterRequest) (hb : List Nat) (q : String)
    (hh : maybeQueryHash req = some hb)
    (hq : req.http_request.query = "")
    (hg : c.get hb = some q) :
    apqCall c req =
      (.forward { req with http_request := { req.http_request with query := q } }, c) := by
  unfold apqCall
  rw [hh]
  simp [hq, hg]

theorem apqCall_hashonly_miss (c : Cache) (req : RouterRequest) (hb : List Nat)
    (hh : maybeQueryHash req = some hb)
    (hq : req.http_request.query = "")
    (hg : c.get hb = none) :
    apqCall c req =
      (.shortCircuit (missResponse (req.context.with_request req.http_request)), c) := by
  unfold apqCall
  rw [hh]
  simp [hq, hg]

theorem apqCall_no_hash (c : Cache) (req : RouterRequest)
    (hh : maybeQueryHash req = none) :
    apqCall c req = (.forward req, c) := by
  unfold apqCall
  rw [hh]

/-! Concrete fixtures, taken from the repository tests: the query
"{__typename}" and its hex-encoded SHA-256 digest. -/

/-- The empty cache a fresh APQ stage starts with. -/
def emptyCache : Cache := []

/-- The hex digest of the query text used by the repository tests. -/
def typenameHashHex : String :=
  "ecf4edb46db40b5132295c0291d62fb65d6759a9eedfa4d5d612dd5ec54a6b38"

/-- A persistedQuery descriptor carrying the digest above. -/
def typenameDescriptor : Json :=
  .obj [("version", .num 1), ("sha256Hash", .str typenameHashHex)]

/-- A request carrying both the descriptor and the full query text. -/
def populateRequest : RouterRequest :=
  { http_request :=
      { query := "{__typename}"
        extensions := [("persistedQuery", typenameDescriptor)] }
    context := { payload := 1, attachedQuery := none } }

/-- A hash-only request: the descriptor with an empty query text. -/
def hashOnlyRequest : RouterRequest :=
  { http_request :=
      { query := ""
        extensions := [("persistedQuery", typenameDescriptor)] }
    context := { payload := 2, attachedQuery := none } }

/-- A request whose descriptor hash "00" does not match its query. -/
def mismatchRequest : RouterRequest :=
  { http_request :=
      { query := "{__typename}"
        extensions :=
          [("persistedQuery", .obj [("version", .num 1), ("sha256Hash", .str "00")])] }
    context := { payload := 3, attachedQuery := none } }

/-- A hash-only request for the mismatched hash "00". -/
def zeroHashOnlyRequest : RouterRequest :=
  { http_request :=
      { query := ""
        extensions :=
          [("persistedQuery", .obj [("version", .num 1), ("sha256Hash", .str "00")])] }
    context := { payload := 4, attachedQuery := none } }

/-- A request with no persistedQuery descriptor at all. -/
def plainRequest : RouterRequest :=
  { http_request := { query := "{__typename}", extensions := [] }
    context := { payload := 5, attachedQuery := none } }

/-- The cache integrity invariant: every cached entry maps the SHA-256
digest of the UTF-8 bytes of a query to that query. -/
def CacheOk (c : Cache) : Prop :=
  ∀ e ∈ c, e.1 = sha256 (utf8Bytes e.2)

/-- The cache after one call is either unchanged or extended by a
verified entry. -/
theorem apqCall_cache_cases (c : Cache) (req : RouterRequest) :
    (apqCall c req).2 = c ∨
    ∃ hb, maybeQueryHash req = some hb ∧
      query_matches_hash req.http_request.query hb = true ∧
      (apqCall c req).2 = c.insert hb req.http_request.query := by
  cases hh : maybeQueryHash req with
  | none => left; rw [apqCall_no_hash c req hh]
  | some hb =>
      by_cases hq : req.http_request.query = ""
      · cases hg : c.get hb with
        | some q => left; rw [apqCall_hit c req hb q hh hq hg]
        | none => left; rw [apqCall_hashonly_miss c req hb hh hq hg]
      · by_cases hm : query_matches_hash req.http_request.query hb
        · right
          exact ⟨hb, rfl, hm, by rw [apqCall_insert c req hb hh hq hm]⟩
        · left
          rw [apqCall_mismatch c req hb hh hq (Bool.not_eq_true _ ▸ hm)]

/-! Claim theorems. -/

/-- C1: for every query string Q with hex-encoded SHA-256 digest H,
after the APQ stage processes a request carrying the persistedQuery
descriptor with hash H together with the non-empty literal query Q,
a subsequent request carrying hash H and an empty query is forwarded
to the inner handler with its query field rewritten to Q. -/
theorem apq_populate_then_hit (c0 : Cache) (req1 req2 : RouterRequest) (Q H : String)
    (hH : H = hexEncode (sha256Utf8 Q))
    (h1 : requestHashHex req1 = some H)
    (h1q : req1.http_request.query = Q)
    (h2 : requestHashHex req2 = some H)
    (h2q : req2.http_request.query = "")
    (hQ : Q ≠ "") :
    apqCall c0 req1 = (.forward req1, c0.insert (sha256Utf8 Q) Q) ∧
    apqCall (c0.insert (sha256Utf8 Q) Q) req2 =
      (.forward { req2 with http_request := { req2.http_request with query := Q } },
       c0.insert (sha256Utf8 Q) Q) := by
  have hdec : hexDecode H = some (sha256Utf8 Q) := by
    rw [hH]
    exact hexDecode_hexEncode _ (sha256_bytes_lt _)
  have hm1 : maybeQueryHash req1 = some (sha256Utf8 Q) := by
    rw [maybeQueryHash_eq, h1, Option.some_bind, hdec]
  have hm2 : maybeQueryHash req2 = some (sha256Utf8 Q) := by
    rw [maybeQueryHash_eq, h2, Option.some_bind, hdec]
  constructor
  · have hne : req1.http_request.query ≠ "" := by rw [h1q]; exact hQ
    have := apqCall_insert c0 req1 (sha256Utf8 Q) hm1 hne
      (by rw [h1q]; exact query_matches_hash_self Q)
    rw [this, h1q]
  · exact apqCall_hit _ req2 (sha256Utf8 Q) Q hm2 h2q
      (Cache.get_insert_self c0 (sha256Utf8 Q) Q)

/-- C1 witness: the round trip at the concrete repository-test query
and digest, starting from the empty cache. -/
theorem apq_populate_then_hit_witness :
    apqCall emptyCache populateRequest =
      (.forward populateRequest,
       Cache.insert emptyCache (sha256Utf8 "{__typename}") "{__typename}") ∧
    apqCall (Cache.insert emptyCache (sha256Utf8 "{__typename}") "{__typename}")
        hashOnlyRequest =
      (.forward
        { hashOnlyRequest with
            http_request := { hashOnlyRequest.http_request with query := "{__typename}" } },
       Cache.insert emptyCache (sha256Utf8 "{__typename}") "{__typename}") :=
  apq_populate_then_hit emptyCache populateRequest hashOnlyRequest
    "{__typename}" typenameHashHex rfl rfl rfl rfl rfl (by decide)

/-- C2: a request carrying a decodable hash and an empty query whose
hash is not cached is short-circuited with the synthesized miss
response — the single PersistedQueryNotFound error with its structured
extensions — carrying the request context; the Outcome.shortCircuit
constructor records that the inner handler is not invoked. -/
theorem apq_miss_short_circuit (c : Cache) (req : RouterRequest) (hb : List Nat)
    (hh : maybeQueryHash req = some hb)
    (hq : req.http_request.query = "")
    (hg : c.get hb = none) :
    apqCall c req =
      (.shortCircuit (missResponse (req.context.with_request req.http_request)), c) ∧
    (missResponse (req.context.with_request req.http_request)).response.errors =
      [{ message := "PersistedQueryNotFound"
         locations := []
         path := none
         extensions :=
           [("code", .str "PERSISTED_QUERY_NOT_FOUND"),
            ("exception",
             .obj [("stacktrace",
                    .arr [.str "PersistedQueryNotFoundError: PersistedQueryNotFound"])])] }] ∧
    (missResponse (req.context.with_request req.http_request)).context.payload =
      req.context.payload := by
  refine ⟨apqCall_hashonly_miss c req hb hh hq hg, rfl, rfl⟩

/-- C2 witness: the hash-only request against the empty cache. -/
theorem apq_miss_short_circuit_witness :
    apqCall emptyCache hashOnlyRequest =
      (.shortCircuit
        (missResponse (hashOnlyRequest.context.with_request hashOnlyRequest.http_request)),
       emptyCache) ∧
    (missResponse (hashOnlyRequest.context.with_request hashOnlyRequest.http_request)).response.errors =
      [{ message := "PersistedQueryNotFound"
         locations := []
         path := none
         extensions :=
           [("code", .str "PERSISTED_QUERY_NOT_FOUND"),
            ("exception",
             .obj [("stacktrace",
                    .arr [.str "PersistedQueryNotFoundError: PersistedQueryNotFound"])])] }] ∧
    (missResponse (hashOnlyRequest.context.with_request hashOnlyRequest.http_request)).context.payload =
      hashOnlyRequest.context.payload :=
  apq_miss_short_circuit emptyCache hashOnlyRequest (sha256Utf8 "{__typename}") rfl rfl rfl

/-- C3: the cache integrity invariant — every entry maps the SHA-256
digest of the UTF-8 bytes of its query to that query — is preserved by
every request-processing step, because insertion happens only after
query_matches_hash succeeds. -/
theorem apq_cache_integrity (c : Cache) (req : RouterRequest) (hc : CacheOk c) :
    CacheOk (apqCall c req).2 := by
  rcases apqCall_cache_cases c req with h | ⟨hb, _, hm, h⟩
  · rw [h]; exact hc
  · rw [h]
    intro e he
    rcases List.mem_cons.mp he with rfl | he2
    · simp only [query_matches_hash] at hm
      exact eq_of_beq hm
    · exact hc e he2

/-- C3 witness: the invariant holds for the empty cache and is carried
through a populating call. -/
theorem apq_cache_integrity_witness : CacheOk (apqCall emptyCache populateRequest).2 :=
  apq_cache_integrity emptyCache populateRequest
    (fun e he => absurd he (List.not_mem_nil e))

/-- C4: a request with a decodable hash and a non-empty query whose
digest differs from the hash leaves the cache unmodified and is
forwarded unchanged with no error; a later hash-only request for the
same hash still misses. -/
theorem apq_hash_mismatch_no_insert (c : Cache) (req later : RouterRequest) (hb : List Nat)
    (hh : maybeQueryHash req = some hb)
    (hq : req.http_request.query ≠ "")
    (hne : hb ≠ sha256 (utf8Bytes req.http_request.query))
    (hlh : maybeQueryHash later = some hb)
    (hlq : later.http_request.query = "")
    (hg : c.get hb = none) :
    apqCall c req = (.forward req, c) ∧
    apqCall (apqCall c req).2 later =
      (.shortCircuit (missResponse (later.context.with_request later.http_request)), c) := by
  have h1 : apqCall c req = (.forward req, c) :=
    apqCall_mismatch c req hb hh hq (query_matches_hash_ne _ _ hne)
  refine ⟨h1, ?_⟩
  rw [h1]
  exact apqCall_hashonly_miss c later hb hlh hlq hg

/-- C4 witness: the query "{__typename}" presented under the wrong
hash "00", followed by a hash-only request for "00". -/
theorem apq_hash_mismatch_no_insert_witness :
    apqCall emptyCache mismatchRequest = (.forward mismatchRequest, emptyCache) ∧
    apqCall (apqCall emptyCache mismatchRequest).2 zeroHashOnlyRequest =
      (.shortCircuit
        (missResponse
          (zeroHashOnlyRequest.context.with_request zeroHashOnlyRequest.http_request)),
       emptyCache) :=
  apq_hash_mismatch_no_insert emptyCache mismatchRequest zeroHashOnlyRequest [0]
    rfl (by decide) (by decide) rfl rfl rfl

/-- C6 counterexample: with the inner handler permanently not ready,
the hash-only cache-missing request is blocked at the admission check
(which APQService::poll_ready delegates to the inner service), so it
is not the case that the stage answers it regardless of readiness. -/
theorem apq_admission_gate_counterexample :
    ¬ ∀ ready : Bool, ∃ out : Outcome × Cache,
        processWithAdmission ready emptyCache hashOnlyRequest = some out := by
  intro h
  rcases h false with ⟨out, hout⟩
  simp [processWithAdmission, apqPollReady] at hout

/-- C6 (amended): the call path itself produces the miss response
without invoking the inner handler, but the admission check of the
stage delegates to the inner handler, so under the stage contract the
request is processed exactly when the inner handler is ready. -/
theorem apq_admission_gate (ready : Bool) (c : Cache) (req : RouterRequest) (hb : List Nat)
    (hh : maybeQueryHash req = some hb)
    (hq : req.http_request.query = "")
    (hg : c.get hb = none) :
    processWithAdmission ready c req =
      if ready then
        some (.shortCircuit (missResponse (req.context.with_request req.http_request)), c)
      else none := by
  cases ready with
  | false => rfl
  | true =>
      simp only [processWithAdmission, apqPollReady, if_true]
      rw [apqCall_hashonly_miss c req hb hh hq hg]

/-- C6 witness: the ready case at the concrete hash-only request. -/
theorem apq_admission_gate_witness :
    processWithAdmission true emptyCache hashOnlyRequest =
      if true then
        some (.shortCircuit
          (missResponse (hashOnlyRequest.context.with_request hashOnlyRequest.http_request)),
         emptyCache)
      else none :=
  apq_admission_gate true emptyCache hashOnlyRequest (sha256Utf8 "{__typename}") rfl rfl rfl

/-- C9: append_errors appends the new errors after the existing ones in
order, never touches any error path, and leaves every other field of
the response unchanged. -/
theorem append_errors_appends (r : Response) (es : List Error) :
    (r.append_errors es).errors = r.errors ++ es ∧
    (r.append_errors es).errors.map Error.path =
      r.errors.map Error.path ++ es.map Error.path ∧
    (r.append_errors es).label = r.label ∧
    (r.append_errors es).data = r.data ∧
    (r.append_errors es).path = r.path ∧
    (r.append_errors es).has_next = r.has_next ∧
    (r.append_errors es).extensions = r.extensions := by
  refine ⟨rfl, ?_, rfl, rfl, rfl, rfl, rfl⟩
  simp [Response.append_errors]

/-- C10: a request whose persistedQuery descriptor is absent, fails
to deserialize, or carries an undecodable hash — exactly the cases
where the hash extraction yields none — is forwarded unchanged for
every cache state, with no cache access and no error. -/
theorem apq_malformed_descriptor_bypass (c : Cache) (req : RouterRequest)
    (hh : maybeQueryHash req = none) :
    apqCall c req = (.forward req, c) :=
  apqCall_no_hash c req hh

/-- C10 witness: the request with no descriptor at all. -/
theorem apq_malformed_descriptor_bypass_witness :
    apqCall emptyCache plainRequest = (.forward plainRequest, emptyCache) :=
  apq_malformed_descriptor_bypass emptyCache plainRequest rfl

/-- The minimal response: all containers empty, all optionals absent,
data the empty object. -/
def emptyResponse : Response :=
  { label := none, data := .obj [], path := none, has_next := none,
    errors := [], extensions := [] }

/-- C5: the wire name mismatch of the has-next flag.  Serialization
(the serde derive with rename_all camelCase) emits the key "hasNext",
but Response::from_bytes extracts the snake_case key "has_next"
(response.rs line 103), so a response object carrying "hasNext" with a
boolean value parses to has_next = none instead of some value. -/
theorem from_bytes_ignores_camelcase_has_next :
    Response.toJson { emptyResponse with has_next := some true } =
      .obj [("hasNext", .bool true)] ∧
    Response.from_bytes "myservice" (.obj [("hasNext", .bool true)]) =
      .ok emptyResponse :=
  ⟨rfl, rfl⟩

/-- C7: wrong-shaped fields under the keys Response::from_bytes
actually extracts all yield SubrequestMalformedResponse with the
originating service name, but a wrong-shaped value under the
camel-case wire key "hasNext" — the name the claim, the spec and the
serde serialization use — is silently ignored and parsing succeeds. -/
theorem from_bytes_malformed_fields :
    Response.from_bytes "accounts" (.obj [("errors", .num 5)]) =
      .error (.SubrequestMalformedResponse "accounts" "invalid type for key: errors") ∧
    Response.from_bytes "accounts" (.obj [("extensions", .str "nope")]) =
      .error (.SubrequestMalformedResponse "accounts" "invalid type for key: extensions") ∧
    Response.from_bytes "accounts" (.obj [("label", .num 3)]) =
      .error (.SubrequestMalformedResponse "accounts" "invalid type for key: label") ∧
    Response.from_bytes "accounts" (.obj [("path", .bool true)]) =
      .error (.SubrequestMalformedResponse "accounts" "invalid path for key: path") ∧
    Response.from_bytes "accounts" (.obj [("has_next", .num 1)]) =
      .error (.SubrequestMalformedResponse "accounts" "invalid type for key: has_next") ∧
    Response.from_bytes "accounts" (.obj [("hasNext", .num 5)]) = .ok emptyResponse :=
  ⟨rfl, rfl, rfl, rfl, rfl, rfl⟩

/-- C8: the minimal response serializes to the empty JSON object (all
six fields omitted, for data both as the empty object and as null),
and parsing the empty object back yields the minimal response with
empty containers, data the empty object, and absent optionals. -/
theorem minimal_response_round_trip :
    Response.toJson emptyResponse = .obj [] ∧
    Response.toJson { emptyResponse with data := .null } = .obj [] ∧
    Response.from_bytes "subgraph" (.obj []) = .ok emptyResponse :=
  ⟨rfl, rfl, rfl⟩
